import Mathlib

/-!
Shallow embedding of the document Processor of agent/framework/processor/processor.go
(amazon-ssm-agent).

The Go code under src is translated function by function: `processCommand`,
`processCancelCommand`, `EngineProcessor.Submit`, `EngineProcessor.submit`,
`EngineProcessor.Cancel`, `EngineProcessor.Stop`, `processPendingDocuments`,
`processInProgressDocuments`, `isSupportedDocumentType`.  Collaborators whose
code is not under src (the docmanager persistence layer, the task.Pool worker
pool, model.DocumentState.IsAssociation) are modelled from the spec, each with
a doc comment saying so.

The on-disk document store is four association lists (one per location), file
name as key.  The Executor's result stream is an input list of results; the
Processor's output channel is the list of results forwarded to it.  Goroutine
interleavings of `Stop` are modelled as the set of possible event traces.
-/

/-- Document-level and plugin-level result statuses (contracts.ResultStatus). -/
inductive ResultStatus
  | inProgress
  | success
  | failed
  | cancelled
  | timedOut
  | successAndReboot
  | shutDown
  deriving DecidableEq

/-- The four on-disk document locations (appconfig.DefaultLocationOf*). -/
inductive Location
  | pending
  | current
  | completed
  | corrupt
  deriving DecidableEq

/-- CancelInformation of model.DocumentState: the target of a cancel-document. -/
structure CancelInformation where
  cancelMessageID : String
  cancelCommandID : String
  debugInfo : String
  deriving DecidableEq

/-- DocumentInformation of model.DocumentState (the fields processor.go reads). -/
structure DocumentInformation where
  documentID : String
  instanceID : String
  messageID : String
  associationID : String
  runCount : Int
  documentStatus : ResultStatus
  deriving DecidableEq

/-- model.DocumentState, restricted to the fields the Processor's control flow
reads.  The plugin payload (InstancePluginsInformation) is carried opaquely by
the real structure and never branched on in processor.go, so it is omitted. -/
structure DocumentState where
  documentInformation : DocumentInformation
  documentType : String
  cancelInformation : CancelInformation
  deriving DecidableEq

/-- Modelled from the spec: model.DocumentState.IsAssociation is not under src.
The spec says each job id is derived from association_id if present else
message_id, so a document counts as an association exactly when its
association id is present (nonempty). -/
def DocumentState.IsAssociation (docState : DocumentState) : Bool :=
  docState.documentInformation.associationID ≠ ""

/-- One result emitted on the Executer's status channel
(contracts.DocumentResult; the plugin-result map is only handed to the external
long-running-plugin manager and is omitted). -/
structure DocumentResult where
  lastPlugin : String
  status : ResultStatus
  deriving DecidableEq

/-- A directory of serialized documents: file name (the document id) to content. -/
abbrev DocDir := List (String × DocumentState)

/-- Content stored under file name `docId`, if the file exists. -/
def dirLookup (d : DocDir) (docId : String) : Option DocumentState :=
  match d with
  | [] => none
  | (k, v) :: rest => if k = docId then some v else dirLookup rest docId

/-- Write (create or overwrite) the file named `docId`. -/
def dirWrite (d : DocDir) (docId : String) (doc : DocumentState) : DocDir :=
  match d with
  | [] => [(docId, doc)]
  | (k, v) :: rest =>
      if k = docId then (docId, doc) :: rest else (k, v) :: dirWrite rest docId doc

/-- Delete the file named `docId`. -/
def dirErase (d : DocDir) (docId : String) : DocDir :=
  match d with
  | [] => []
  | (k, v) :: rest =>
      if k = docId then dirErase rest docId else (k, v) :: dirErase rest docId

/-- The on-disk state under {data_root}/{instance_id}: one directory per location. -/
structure DocStore where
  pending : DocDir
  current : DocDir
  completed : DocDir
  corrupt : DocDir
  deriving DecidableEq

/-- Directory of a location. -/
def DocStore.dirOf (s : DocStore) : Location → DocDir
  | Location.pending => s.pending
  | Location.current => s.current
  | Location.completed => s.completed
  | Location.corrupt => s.corrupt

/-- Replace the directory of a location. -/
def DocStore.setDir (s : DocStore) : Location → DocDir → DocStore
  | Location.pending, d => { s with pending := d }
  | Location.current, d => { s with current := d }
  | Location.completed, d => { s with completed := d }
  | Location.corrupt, d => { s with corrupt := d }

/-- Modelled from the spec: docmanager.PersistData is not under src.  It writes
the serialized document at {location}/{document_id} (temp file plus rename);
only that single file is touched. -/
def persistData (s : DocStore) (docId : String) (loc : Location) (doc : DocumentState) : DocStore :=
  s.setDir loc (dirWrite (s.dirOf loc) docId doc)

/-- Modelled from the spec: docmanager.MoveDocumentState is not under src.  It
renames {src}/{document_id} to {dst}/{document_id}; a missing source file makes
the rename fail, which is only logged, leaving the store unchanged. -/
def moveDocumentState (s : DocStore) (docId : String) (src dst : Location) : DocStore :=
  match dirLookup (s.dirOf src) docId with
  | some doc =>
      (s.setDir src (dirErase (s.dirOf src) docId)).setDir dst (dirWrite (s.dirOf dst) docId doc)
  | none => s

/-- Modelled from the spec: the cancellation token of task.CancelFlag has the
three observable states active, cancelled (user) and shutdown (pool). -/
inductive TokenState
  | active
  | cancelled
  | shutDown
  deriving DecidableEq

/-- Modelled from the spec: one entry of a task.Pool, either still queued or
running with its cancellation token. -/
structure Job where
  jobId : String
  queued : Bool
  token : TokenState
  deriving DecidableEq

/-- Errors task.Pool.Submit can return. -/
inductive PoolError
  | duplicateJobId
  | poolShutdown
  deriving DecidableEq

/-- Modelled from the spec: a task.Pool is a bounded queue of jobs keyed by
job id; it rejects duplicate job ids and submissions during shutdown. -/
structure Pool where
  jobs : List Job
  shuttingDown : Bool
  deriving DecidableEq

/-- Modelled from the spec: task.Pool.Submit enqueues a fresh job under
`jobId`, returning DuplicateJobId when the id is already queued or running and
PoolShutdown when the pool is shutting down. -/
def Pool.submit (p : Pool) (jobId : String) : Except PoolError Pool :=
  if p.shuttingDown then Except.error PoolError.poolShutdown
  else if p.jobs.any (fun j => decide (j.jobId = jobId)) then Except.error PoolError.duplicateJobId
  else Except.ok { p with jobs := p.jobs ++ [{ jobId := jobId, queued := true, token := TokenState.active }] }

/-- Modelled from the spec: task.Pool.Cancel(jobId) removes the job if it is
still queued, signals its cancellation token if it is running, and reports
whether a job with that id was found; no other job is touched. -/
def Pool.cancelFound (p : Pool) (jobId : String) : Bool × Pool :=
  if p.jobs.any (fun j => decide (j.jobId = jobId)) then
    (true,
     { p with
        jobs := p.jobs.filterMap (fun j =>
          if j.jobId = jobId then
            (if j.queued then none else some { j with token := TokenState.cancelled })
          else some j) })
  else (false, p)

/-- EngineProcessor: the two worker pools and the supported document types.
The context, executer creator and output channel carry no branching state. -/
structure EngineProcessor where
  sendCommandPool : Pool
  cancelCommandPool : Pool
  supportedDocTypes : List String
  deriving DecidableEq

/-- isSupportedDocumentType of processor.go: linear scan over supportedDocTypes. -/
def EngineProcessor.isSupportedDocumentType (p : EngineProcessor) (documentType : String) : Bool :=
  p.supportedDocTypes.any (fun d => decide (documentType = d))

/-- docState.DocumentInformation.RunCount++ of processInProgressDocuments. -/
def incrementRunCount (docState : DocumentState) : DocumentState :=
  { docState with
      documentInformation :=
        { docState.documentInformation with
            runCount := docState.documentInformation.runCount + 1 } }

/-- The result-drain loop of processCommand: each received result is forwarded
to the output channel and isReboot is reassigned to whether this result's
status is SuccessAndReboot (so after the loop it reflects the last result). -/
def drainResults (stream : List DocumentResult) (sent : List DocumentResult) (isReboot : Bool) :
    List DocumentResult × Bool :=
  match stream with
  | [] => (sent, isReboot)
  | res :: rest =>
      drainResults rest (sent ++ [res]) (decide (res.status = ResultStatus.successAndReboot))

/-- Outcome of one command job: the store after the job body, the results
forwarded onto the Processor's output channel, and whether
rebooter.RequestPendingReboot was called. -/
structure CommandJobOutcome where
  store : DocStore
  emitted : List DocumentResult
  rebootRequested : Bool
  deriving DecidableEq

/-- processCommand of processor.go.  The Executer's stream is the input list
`stream`.  The handleCloudwatchPlugin call before each send only invokes the
external long-running-plugin manager and touches neither the store nor the
pools nor the channel, so it contributes nothing to the outcome. -/
def processCommand (store : DocStore) (docState : DocumentState) (stream : List DocumentResult) :
    CommandJobOutcome :=
  let documentID := docState.documentInformation.documentID
  let store1 := moveDocumentState store documentID Location.pending Location.current
  let dr := drainResults stream [] false
  if dr.2 then
    { store := store1, emitted := dr.1, rebootRequested := true }
  else
    { store := moveDocumentState store1 documentID Location.current Location.completed,
      emitted := dr.1, rebootRequested := false }

/-- Outcome of one cancel job: the send-command pool after the targeted
cancel, the cancel-document with its recorded outcome, and the store. -/
structure CancelJobOutcome where
  pool : Pool
  docState : DocumentState
  store : DocStore
  deriving DecidableEq

/-- processCancelCommand of processor.go: cancel the target job in the
send-command pool, record the outcome in the cancel-doc's DebugInfo and
DocumentStatus, persist it in current, then move current to completed. -/
def processCancelCommand (sendCommandPool : Pool) (docState : DocumentState) (store : DocStore) :
    CancelJobOutcome :=
  let fp := Pool.cancelFound sendCommandPool docState.cancelInformation.cancelMessageID
  let doc' :=
    if fp.1 = false then
      { docState with
          cancelInformation :=
            { docState.cancelInformation with
                debugInfo :=
                  "Command " ++ docState.cancelInformation.cancelCommandID ++ " couldn\'t be cancelled" },
          documentInformation :=
            { docState.documentInformation with documentStatus := ResultStatus.failed } }
    else
      { docState with
          cancelInformation :=
            { docState.cancelInformation with
                debugInfo :=
                  "Command " ++ docState.cancelInformation.cancelCommandID ++ " cancelled" },
          documentInformation :=
            { docState.documentInformation with documentStatus := ResultStatus.success } }
  let store1 := persistData store doc'.documentInformation.documentID Location.current doc'
  let store2 :=
    moveDocumentState store1 doc'.documentInformation.documentID Location.current Location.completed
  { pool := fp.2, docState := doc', store := store2 }

/-- The job id both submit and Cancel derive: AssociationID for associations,
MessageID otherwise. -/
def jobIdFor (docState : DocumentState) : String :=
  if docState.IsAssociation then docState.documentInformation.associationID
  else docState.documentInformation.messageID

/-- EngineProcessor.submit (lower case) of processor.go: enqueue a command job
under the derived job id on the send-command pool. -/
def EngineProcessor.submit (p : EngineProcessor) (docState : DocumentState) :
    Except PoolError EngineProcessor :=
  let jobID := jobIdFor docState
  match p.sendCommandPool.submit jobID with
  | Except.ok pool' => Except.ok { p with sendCommandPool := pool' }
  | Except.error e => Except.error e

/-- What the caller of Submit gets back.  Go's Submit declares no return
values, so each of its return statements hands the caller nothing;
callerError records that (absent) value on every path. -/
structure SubmitOutcome where
  processor : EngineProcessor
  store : DocStore
  callerError : Option PoolError
  deriving DecidableEq

/-- EngineProcessor.Submit of processor.go: persist to pending, enqueue on the
send-command pool; on rejection log the error and move pending to corrupt.
Both Go return statements carry no value, hence callerError is none on both
paths. -/
def EngineProcessor.Submit (p : EngineProcessor) (store : DocStore) (docState : DocumentState) :
    SubmitOutcome :=
  let documentID := docState.documentInformation.documentID
  let store1 := persistData store documentID Location.pending docState
  match p.submit docState with
  | Except.error _e =>
      { processor := p,
        store := moveDocumentState store1 documentID Location.pending Location.corrupt,
        callerError := none }
  | Except.ok p' => { processor := p', store := store1, callerError := none }

/-- EngineProcessor.Cancel of processor.go: persist the cancel-doc to pending
and enqueue a cancel job under the derived job id on the cancel pool; a pool
rejection is only logged and the function returns. -/
def EngineProcessor.Cancel (p : EngineProcessor) (store : DocStore) (docState : DocumentState) :
    EngineProcessor × DocStore :=
  let jobID := jobIdFor docState
  let store1 := persistData store docState.documentInformation.documentID Location.pending docState
  match p.cancelCommandPool.submit jobID with
  | Except.error _e => (p, store1)
  | Except.ok pool' => ({ p with cancelCommandPool := pool' }, store1)

/-- The loop body of processPendingDocuments over the pending directory
listing: load each document and Submit it when its type is supported. -/
def processPendingLoop (p : EngineProcessor) (store : DocStore) (files : List (String × DocumentState)) :
    EngineProcessor × DocStore :=
  match files with
  | [] => (p, store)
  | (_fname, docState) :: rest =>
      if p.isSupportedDocumentType docState.documentType then
        let out := EngineProcessor.Submit p store docState
        processPendingLoop out.processor out.store rest
      else processPendingLoop p store rest

/-- processPendingDocuments of processor.go.  The directory listing is taken
once; processing one file only rewrites that file's own id, so iterating over
the initial listing is the directory-read semantics of the source. -/
def EngineProcessor.processPendingDocuments (p : EngineProcessor) (store : DocStore) :
    EngineProcessor × DocStore :=
  processPendingLoop p store store.pending

/-- The loop body of processInProgressDocuments over the current directory
listing: move retry-exhausted documents to corrupt, otherwise increment
RunCount, persist, and submit when the type is supported (a failed submit also
moves the file to corrupt). -/
def processInProgressLoop (retryLimit : Int) (p : EngineProcessor) (store : DocStore)
    (files : List (String × DocumentState)) : EngineProcessor × DocStore :=
  match files with
  | [] => (p, store)
  | (fname, docState0) :: rest =>
      if docState0.documentInformation.runCount ≥ retryLimit then
        processInProgressLoop retryLimit p
          (moveDocumentState store fname Location.current Location.corrupt) rest
      else
        let docState := incrementRunCount docState0
        let store1 := persistData store docState.documentInformation.documentID Location.current docState
        if p.isSupportedDocumentType docState.documentType then
          match p.submit docState with
          | Except.error _e =>
              processInProgressLoop retryLimit p
                (moveDocumentState store1 fname Location.current Location.corrupt) rest
          | Except.ok p' => processInProgressLoop retryLimit p' store1 rest
        else processInProgressLoop retryLimit p store1 rest

/-- processInProgressDocuments of processor.go; retryLimit is
config.Mds.CommandRetryLimit. -/
def EngineProcessor.processInProgressDocuments (p : EngineProcessor) (retryLimit : Int)
    (store : DocStore) : EngineProcessor × DocStore :=
  processInProgressLoop retryLimit p store store.current

/-- EngineProcessor.Start of processor.go: recover current first, then pending. -/
def EngineProcessor.Start (p : EngineProcessor) (retryLimit : Int) (store : DocStore) :
    EngineProcessor × DocStore :=
  let out := p.processInProgressDocuments retryLimit store
  EngineProcessor.processPendingDocuments out.1 out.2

/-- contracts.StopType. -/
inductive StopType
  | softStop
  | hardStop
  deriving DecidableEq

/-- hardStopTimeout of processor.go: time.Second * 4, in milliseconds. -/
def hardStopTimeoutMillis : Int := 4000

/-- Observable effects of EngineProcessor.Stop, in order. -/
inductive StopEvent
  | shutdownSendCommandPool (timeoutMillis : Int)
  | shutdownCancelCommandPool (timeoutMillis : Int)
  | closeResChan
  deriving DecidableEq

/-- EngineProcessor.Stop of processor.go as its set of possible event traces:
the two ShutdownAndWait calls run in concurrent goroutines, so either may come
first, and the wait-group join puts close(resChan) after both.
softStopTimeoutMillis is config.Mds.StopTimeoutMillis. -/
def EngineProcessor.StopTraces (softStopTimeoutMillis : Int) (stopType : StopType) :
    List (List StopEvent) :=
  let waitTimeout :=
    if stopType = StopType.softStop then softStopTimeoutMillis else hardStopTimeoutMillis
  [ [StopEvent.shutdownSendCommandPool waitTimeout,
     StopEvent.shutdownCancelCommandPool waitTimeout,
     StopEvent.closeResChan],
    [StopEvent.shutdownCancelCommandPool waitTimeout,
     StopEvent.shutdownSendCommandPool waitTimeout,
     StopEvent.closeResChan] ]

/-- Blank cancel information: commands that are not cancel-documents carry it empty. -/
def blankCancelInfo : CancelInformation :=
  { cancelMessageID := "", cancelCommandID := "", debugInfo := "" }

/-- A store with all four locations empty. -/
def emptyStore : DocStore :=
  { pending := [], current := [], completed := [], corrupt := [] }

/-- A processor with two empty pools supporting the SendCommand type. -/
def procTwoPools : EngineProcessor :=
  { sendCommandPool := { jobs := [], shuttingDown := false },
    cancelCommandPool := { jobs := [], shuttingDown := false },
    supportedDocTypes := ["SendCommand"] }

/-- A sample command document d1 whose stored run count is 2. -/
def docD1Retry : DocumentState :=
  { documentInformation :=
      { documentID := "d1", instanceID := "i1", messageID := "m1", associationID := "",
        runCount := 2, documentStatus := ResultStatus.inProgress },
    documentType := "SendCommand",
    cancelInformation := blankCancelInfo }

/-- A store whose current directory holds only d1. -/
def storeD1Retry : DocStore :=
  { pending := [], current := [("d1", docD1Retry)], completed := [], corrupt := [] }

/-- A sample command document d3 sitting in pending. -/
def docD3 : DocumentState :=
  { documentInformation :=
      { documentID := "d3", instanceID := "i1", messageID := "m3", associationID := "",
        runCount := 0, documentStatus := ResultStatus.inProgress },
    documentType := "SendCommand",
    cancelInformation := blankCancelInfo }

/-- A store whose pending directory holds only d3. -/
def storeD3 : DocStore :=
  { pending := [("d3", docD3)], current := [], completed := [], corrupt := [] }

/-- An intermediate executer result whose status is SuccessAndReboot. -/
def rebootRes : DocumentResult := { lastPlugin := "A", status := ResultStatus.successAndReboot }

/-- A final executer result whose status is Success. -/
def successRes : DocumentResult := { lastPlugin := "", status := ResultStatus.success }

/-- A send-command pool already holding a job with id m1. -/
def poolWithM1 : Pool :=
  { jobs := [{ jobId := "m1", queued := true, token := TokenState.active }], shuttingDown := false }

/-- A processor whose send-command pool already holds job m1. -/
def procDup : EngineProcessor :=
  { sendCommandPool := poolWithM1,
    cancelCommandPool := { jobs := [], shuttingDown := false },
    supportedDocTypes := ["SendCommand"] }

/-- A sample document d4 whose message id collides with the queued job m1. -/
def docM1 : DocumentState :=
  { documentInformation :=
      { documentID := "d4", instanceID := "i1", messageID := "m1", associationID := "",
        runCount := 0, documentStatus := ResultStatus.inProgress },
    documentType := "SendCommand",
    cancelInformation := blankCancelInfo }

/-- A sample document u1 whose type is not in procTwoPools' supported set. -/
def docUnsupported : DocumentState :=
  { documentInformation :=
      { documentID := "u1", instanceID := "i1", messageID := "mu", associationID := "",
        runCount := 0, documentStatus := ResultStatus.inProgress },
    documentType := "Association",
    cancelInformation := blankCancelInfo }

/-- A store whose current directory holds only the unsupported-type u1. -/
def storeUnsupported : DocStore :=
  { pending := [], current := [("u1", docUnsupported)], completed := [], corrupt := [] }

/-- A store whose pending directory holds only the unsupported-type u1. -/
def storePendUnsupported : DocStore :=
  { pending := [("u1", docUnsupported)], current := [], completed := [], corrupt := [] }

/-- A sample cancel-document c1 targeting message id m9 of command cmd9. -/
def cancelDocC9 : DocumentState :=
  { documentInformation :=
      { documentID := "c1", instanceID := "i1", messageID := "cm1", associationID := "",
        runCount := 0, documentStatus := ResultStatus.inProgress },
    documentType := "CancelCommand",
    cancelInformation := { cancelMessageID := "m9", cancelCommandID := "cmd9", debugInfo := "" } }

/-- A processor whose cancel pool is shutting down. -/
def procCancelShut : EngineProcessor :=
  { sendCommandPool := { jobs := [], shuttingDown := false },
    cancelCommandPool := { jobs := [], shuttingDown := true },
    supportedDocTypes := ["SendCommand"] }

/-- The processor procTwoPools after successfully submitting docD1Retry. -/
def procSubmitted : EngineProcessor :=
  { sendCommandPool :=
      { jobs := [{ jobId := "m1", queued := true, token := TokenState.active }],
        shuttingDown := false },
    cancelCommandPool := { jobs := [], shuttingDown := false },
    supportedDocTypes := ["SendCommand"] }

/-- A queued job whose id differs from every cancel target used below. -/
def jobOther : Job := { jobId := "zz", queued := true, token := TokenState.active }

/-- A pool holding only jobOther. -/
def poolOther : Pool := { jobs := [jobOther], shuttingDown := false }

/-- A sample supported command document d9 with run count 0. -/
def docD9 : DocumentState :=
  { documentInformation :=
      { documentID := "d9", instanceID := "i1", messageID := "m9w", associationID := "",
        runCount := 0, documentStatus := ResultStatus.inProgress },
    documentType := "SendCommand",
    cancelInformation := blankCancelInfo }

/-- A store whose current directory holds two documents, d1 and d9. -/
def storeTwoDocs : DocStore :=
  { pending := [], current := [("d1", docD1Retry), ("d9", docD9)], completed := [], corrupt := [] }

/-- A second unsupported-type document, u2. -/
def docUnsupported2 : DocumentState :=
  { documentInformation :=
      { documentID := "u2", instanceID := "i1", messageID := "mu2", associationID := "",
        runCount := 0, documentStatus := ResultStatus.inProgress },
    documentType := "Association",
    cancelInformation := blankCancelInfo }

/-- A store with mixed supported and unsupported documents in both the pending
and the current directory. -/
def storeMixed : DocStore :=
  { pending := [("d3", docD3), ("u1", docUnsupported)],
    current := [("d1", docD1Retry), ("u2", docUnsupported2)],
    completed := [], corrupt := [] }

/-- The drain loop forwards every received result, in order, after the already
sent ones. -/
theorem drainResults_emitted (stream : List DocumentResult) :
    ∀ sent b, (drainResults stream sent b).1 = sent ++ stream := by
  induction stream with
  | nil => intro sent b; simp [drainResults]
  | cons res rest ih =>
      intro sent b
      simp [drainResults, ih]

/-- When no result in the stream has status SuccessAndReboot, the isReboot
flag is still false after the loop. -/
theorem drainResults_flag_false (stream : List DocumentResult)
    (h : ∀ r ∈ stream, r.status ≠ ResultStatus.successAndReboot) :
    ∀ sent, (drainResults stream sent false).2 = false := by
  induction stream with
  | nil => intro sent; rfl
  | cons res rest ih =>
      intro sent
      have hres : decide (res.status = ResultStatus.successAndReboot) = false := by
        simp [h res (List.mem_cons_self res rest)]
      simp only [drainResults, hres]
      exact ih (fun r hr => h r (List.mem_cons_of_mem res hr)) (sent ++ [res])

/-- After the loop, the isReboot flag holds whatever the last result assigned. -/
theorem drainResults_flag_last (stream : List DocumentResult) (r : DocumentResult) :
    stream.getLast? = some r →
    ∀ sent b, (drainResults stream sent b).2 = decide (r.status = ResultStatus.successAndReboot) := by
  induction stream with
  | nil => intro h; simp at h
  | cons res rest ih =>
      intro h sent b
      cases rest with
      | nil =>
          rw [List.getLast?_singleton] at h
          simp at h
          subst h
          simp [drainResults]
      | cons res2 rest2 =>
          rw [List.getLast?_cons_cons] at h
          simp only [drainResults]
          exact ih h (sent ++ [res]) (decide (res.status = ResultStatus.successAndReboot))

/-- C1: for every document submitted to the command pool, the job body first
moves it from pending to current, forwards every result the executer run
emits onto the Processor's output channel, and, when no emitted result
carried SuccessAndReboot, finally moves it from current to completed. -/
theorem processCommand_forwards_then_completes (store : DocStore) (docState : DocumentState)
    (stream : List DocumentResult)
    (h : ∀ r ∈ stream, r.status ≠ ResultStatus.successAndReboot) :
    (processCommand store docState stream).emitted = stream ∧
    (processCommand store docState stream).rebootRequested = false ∧
    (processCommand store docState stream).store =
      moveDocumentState
        (moveDocumentState store docState.documentInformation.documentID Location.pending Location.current)
        docState.documentInformation.documentID Location.current Location.completed := by
  have hflag := drainResults_flag_false stream h []
  have hsent := drainResults_emitted stream [] false
  simp only [processCommand, hflag, hsent]
  simp

/-- Witness for C1 at a concrete pending document and a one-result stream. -/
theorem processCommand_forwards_then_completes_witness :
    (∀ r ∈ [successRes], r.status ≠ ResultStatus.successAndReboot) ∧
    ((processCommand storeD3 docD3 [successRes]).emitted = [successRes] ∧
     (processCommand storeD3 docD3 [successRes]).rebootRequested = false ∧
     (processCommand storeD3 docD3 [successRes]).store =
       moveDocumentState
         (moveDocumentState storeD3 docD3.documentInformation.documentID Location.pending Location.current)
         docD3.documentInformation.documentID Location.current Location.completed) :=
  ⟨by decide, processCommand_forwards_then_completes storeD3 docD3 [successRes] (by decide)⟩

/-- C3 counterexample: a stream in which a SuccessAndReboot result is followed
by a later result of another status.  The job body requests no reboot and
moves the document to completed, although a result with the
success-and-reboot status was emitted. -/
theorem processCommand_midstream_reboot_ignored :
    (rebootRes ∈ [rebootRes, successRes] ∧ rebootRes.status = ResultStatus.successAndReboot) ∧
    (processCommand storeD3 docD3 [rebootRes, successRes]).rebootRequested = false ∧
    dirLookup ((processCommand storeD3 docD3 [rebootRes, successRes]).store.dirOf Location.current) "d3" = none ∧
    dirLookup ((processCommand storeD3 docD3 [rebootRes, successRes]).store.dirOf Location.completed) "d3" =
      some docD3 := by
  decide

/-- C3 amended: when the LAST result emitted during the executer run has
status SuccessAndReboot (the isReboot flag is reassigned on every received
result, so only the final one decides), the job body requests a pending
reboot, still forwards every result, and returns with the document left in
current: the store ends exactly after the single pending-to-current move, so
no move to completed or corrupt occurs. -/
theorem processCommand_last_reboot_stays_current (store : DocStore) (docState : DocumentState)
    (stream : List DocumentResult) (r : DocumentResult)
    (hlast : stream.getLast? = some r) (hr : r.status = ResultStatus.successAndReboot) :
    (processCommand store docState stream).emitted = stream ∧
    (processCommand store docState stream).rebootRequested = true ∧
    (processCommand store docState stream).store =
      moveDocumentState store docState.documentInformation.documentID Location.pending Location.current := by
  have hflag := drainResults_flag_last stream r hlast [] false
  rw [hr] at hflag
  simp only [decide_eq_true_eq] at hflag
  have hsent := drainResults_emitted stream [] false
  simp only [processCommand, hflag, hsent]
  simp

/-- Witness for the amended C3 at a concrete store and a reboot-final stream. -/
theorem processCommand_last_reboot_stays_current_witness :
    ([rebootRes].getLast? = some rebootRes ∧ rebootRes.status = ResultStatus.successAndReboot) ∧
    ((processCommand storeD3 docD3 [rebootRes]).emitted = [rebootRes] ∧
     (processCommand storeD3 docD3 [rebootRes]).rebootRequested = true ∧
     (processCommand storeD3 docD3 [rebootRes]).store =
       moveDocumentState storeD3 docD3.documentInformation.documentID Location.pending Location.current) :=
  ⟨⟨by decide, by decide⟩,
   processCommand_last_reboot_stays_current storeD3 docD3 [rebootRes] rebootRes (by decide) (by decide)⟩

/-- Looking up a freshly written file returns the written content. -/
theorem dirLookup_dirWrite_self (d : DocDir) (docId : String) (doc : DocumentState) :
    dirLookup (dirWrite d docId doc) docId = some doc := by
  induction d with
  | nil => simp [dirWrite, dirLookup]
  | cons kv rest ih =>
      obtain ⟨k, v⟩ := kv
      by_cases h : k = docId
      · simp [dirWrite, dirLookup, h]
      · simp [dirWrite, dirLookup, h, ih]

/-- Reading a directory after replacing one directory of the store. -/
theorem DocStore.dirOf_setDir (s : DocStore) (loc loc' : Location) (d : DocDir) :
    (s.setDir loc d).dirOf loc' = if loc = loc' then d else s.dirOf loc' := by
  cases loc <;> cases loc' <;> simp [DocStore.setDir, DocStore.dirOf]

/-- Incrementing the run count leaves the document type unchanged. -/
theorem incrementRunCount_documentType (d : DocumentState) :
    (incrementRunCount d).documentType = d.documentType := rfl

/-- Incrementing the run count leaves the document id unchanged. -/
theorem incrementRunCount_documentID (d : DocumentState) :
    (incrementRunCount d).documentInformation.documentID = d.documentInformation.documentID := rfl

/-- C2 counterexample: a document in current whose stored run_count equals the
retry limit is moved to corrupt untouched.  Its run_count is not incremented
and no incremented copy is persisted anywhere, while the claim asserts every
document found in current gets run_count incremented by one and persisted. -/
theorem retryExhausted_not_incremented :
    EngineProcessor.processInProgressDocuments procTwoPools 2 storeD1Retry =
      (procTwoPools,
       { pending := [], current := [], completed := [], corrupt := [("d1", docD1Retry)] }) ∧
    docD1Retry.documentInformation.runCount = 2 ∧
    dirLookup ((EngineProcessor.processInProgressDocuments procTwoPools 2 storeD1Retry).2.dirOf Location.corrupt) "d1" ≠
      some (incrementRunCount docD1Retry) := by
  decide

/-- C4 counterexample: the command pool rejects d4 (its job id m1 is already
queued) and Submit moves the document from pending to corrupt, but the caller
receives no error: Go's Submit declares no return values, so the pool's error
is logged and swallowed, while the claim says it is returned to the caller. -/
theorem Submit_pool_error_not_returned :
    EngineProcessor.submit procDup docM1 = Except.error PoolError.duplicateJobId ∧
    (EngineProcessor.Submit procDup emptyStore docM1).callerError = none ∧
    dirLookup ((EngineProcessor.Submit procDup emptyStore docM1).store.dirOf Location.corrupt) "d4" =
      some docM1 :=
  ⟨by rfl, by rfl, by rfl⟩

/-- C4 amended: Submit persists the document to pending and enqueues it on the
command pool; when the pool rejects the submission it moves the document from
pending to corrupt and returns, and in every case it hands the caller no
error (the pool's error is only logged). -/
theorem Submit_rejection_moves_to_corrupt (p : EngineProcessor) (store : DocStore)
    (docState : DocumentState) :
    (EngineProcessor.Submit p store docState).callerError = none ∧
    (∀ e, EngineProcessor.submit p docState = Except.error e →
      EngineProcessor.Submit p store docState =
        { processor := p,
          store := moveDocumentState
            (persistData store docState.documentInformation.documentID Location.pending docState)
            docState.documentInformation.documentID Location.pending Location.corrupt,
          callerError := none }) ∧
    (∀ p', EngineProcessor.submit p docState = Except.ok p' →
      EngineProcessor.Submit p store docState =
        { processor := p',
          store := persistData store docState.documentInformation.documentID Location.pending docState,
          callerError := none }) := by
  refine ⟨?_, ?_, ?_⟩
  · cases hs : EngineProcessor.submit p docState with
    | error e => simp [EngineProcessor.Submit, hs]
    | ok p' => simp [EngineProcessor.Submit, hs]
  · intro e he
    simp [EngineProcessor.Submit, he]
  · intro p' hp
    simp [EngineProcessor.Submit, hp]

/-- Witness for the amended C4 at the concrete duplicate-job-id rejection. -/
theorem Submit_rejection_moves_to_corrupt_witness :
    (EngineProcessor.submit procDup docM1 = Except.error PoolError.duplicateJobId) ∧
    ((EngineProcessor.Submit procDup emptyStore docM1).callerError = none ∧
     EngineProcessor.Submit procDup emptyStore docM1 =
       { processor := procDup,
         store := moveDocumentState
           (persistData emptyStore docM1.documentInformation.documentID Location.pending docM1)
           docM1.documentInformation.documentID Location.pending Location.corrupt,
         callerError := none }) :=
  ⟨by rfl,
   (Submit_rejection_moves_to_corrupt procDup emptyStore docM1).1,
   (Submit_rejection_moves_to_corrupt procDup emptyStore docM1).2.1
     PoolError.duplicateJobId (by rfl)⟩

/-- C5: the cancel job records the outcome of the targeted pool cancel in the
cancel-doc's DebugInfo ("Command {cancel_command_id} cancelled" on found,
"Command {cancel_command_id} couldn't be cancelled" on not found), sets the
document status to Success respectively Failed, keeps the document id, and in
both cases persists the updated cancel-doc in current and then moves it from
current to completed. -/
theorem processCancelCommand_outcome (pool : Pool) (docState : DocumentState) (store : DocStore) :
    (processCancelCommand pool docState store).docState.cancelInformation.debugInfo =
      (if (Pool.cancelFound pool docState.cancelInformation.cancelMessageID).1 then
        "Command " ++ docState.cancelInformation.cancelCommandID ++ " cancelled"
       else "Command " ++ docState.cancelInformation.cancelCommandID ++ " couldn\'t be cancelled") ∧
    (processCancelCommand pool docState store).docState.documentInformation.documentStatus =
      (if (Pool.cancelFound pool docState.cancelInformation.cancelMessageID).1 then ResultStatus.success
       else ResultStatus.failed) ∧
    (processCancelCommand pool docState store).docState.documentInformation.documentID =
      docState.documentInformation.documentID ∧
    (processCancelCommand pool docState store).store =
      moveDocumentState
        (persistData store (processCancelCommand pool docState store).docState.documentInformation.documentID
          Location.current (processCancelCommand pool docState store).docState)
        (processCancelCommand pool docState store).docState.documentInformation.documentID
        Location.current Location.completed := by
  cases hf : (Pool.cancelFound pool docState.cancelInformation.cancelMessageID).1 with
  | false => simp [processCancelCommand, hf]
  | true => simp [processCancelCommand, hf]

/-- C10: when the cancel pool rejects the cancel-doc's submission, Cancel
returns after logging: the cancel-doc stays persisted in pending and nothing
else changes (no move to corrupt, processor untouched). -/
theorem Cancel_rejection_leaves_pending (p : EngineProcessor) (store : DocStore)
    (docState : DocumentState) (e : PoolError)
    (h : p.cancelCommandPool.submit (jobIdFor docState) = Except.error e) :
    EngineProcessor.Cancel p store docState =
      (p, persistData store docState.documentInformation.documentID Location.pending docState) := by
  simp [EngineProcessor.Cancel, h]

/-- Witness for C10 at a concrete shutting-down cancel pool. -/
theorem Cancel_rejection_leaves_pending_witness :
    (procCancelShut.cancelCommandPool.submit (jobIdFor cancelDocC9) =
      Except.error PoolError.poolShutdown) ∧
    EngineProcessor.Cancel procCancelShut emptyStore cancelDocC9 =
      (procCancelShut,
       persistData emptyStore cancelDocC9.documentInformation.documentID Location.pending cancelDocC9) :=
  ⟨by rfl,
   Cancel_rejection_leaves_pending procCancelShut emptyStore cancelDocC9
     PoolError.poolShutdown (by rfl)⟩

/-- C6 counterexample: a document of unsupported type sitting in current is
not left unchanged by recovery: its run_count is incremented and the changed
copy is persisted, contradicting the claim that unsupported-type documents
keep their persisted state and run_count. -/
theorem unsupported_current_runCount_bumped :
    procTwoPools.isSupportedDocumentType docUnsupported.documentType = false ∧
    dirLookup ((EngineProcessor.processInProgressDocuments procTwoPools 5 storeUnsupported).2.dirOf Location.current) "u1" =
      some (incrementRunCount docUnsupported) ∧
    incrementRunCount docUnsupported ≠ docUnsupported := by
  decide

/-- C7: Stop uses the configured soft-stop timeout exactly when the stop type
is soft and the fixed 4000 millisecond hard-stop timeout otherwise; every
possible trace shuts down both worker pools with that timeout and closes the
shared output channel last, after both shutdowns, and nowhere else. -/
theorem Stop_timeout_and_close_last (softMs : Int) (st : StopType) (tr : List StopEvent)
    (h : tr ∈ EngineProcessor.StopTraces softMs st) :
    StopEvent.shutdownSendCommandPool (if st = StopType.softStop then softMs else hardStopTimeoutMillis) ∈ tr ∧
    StopEvent.shutdownCancelCommandPool (if st = StopType.softStop then softMs else hardStopTimeoutMillis) ∈ tr ∧
    tr.getLast? = some StopEvent.closeResChan ∧
    (∀ e ∈ tr.dropLast, e ≠ StopEvent.closeResChan) := by
  simp only [EngineProcessor.StopTraces, List.mem_cons, List.not_mem_nil, or_false] at h
  rcases h with h | h <;> subst h <;>
    refine ⟨by simp, by simp, by simp [List.getLast?], ?_⟩ <;>
    · intro e he
      simp only [List.dropLast, List.mem_cons, List.not_mem_nil, or_false] at he
      rcases he with rfl | rfl <;> simp

/-- Witness for C7 at a concrete soft stop with a 7000 millisecond timeout. -/
theorem Stop_timeout_and_close_last_witness :
    ([StopEvent.shutdownSendCommandPool 7000, StopEvent.shutdownCancelCommandPool 7000,
      StopEvent.closeResChan] ∈ EngineProcessor.StopTraces 7000 StopType.softStop) ∧
    (StopEvent.shutdownSendCommandPool
        (if StopType.softStop = StopType.softStop then (7000 : Int) else hardStopTimeoutMillis) ∈
      [StopEvent.shutdownSendCommandPool 7000, StopEvent.shutdownCancelCommandPool 7000,
       StopEvent.closeResChan] ∧
     StopEvent.shutdownCancelCommandPool
        (if StopType.softStop = StopType.softStop then (7000 : Int) else hardStopTimeoutMillis) ∈
      [StopEvent.shutdownSendCommandPool 7000, StopEvent.shutdownCancelCommandPool 7000,
       StopEvent.closeResChan] ∧
     ([StopEvent.shutdownSendCommandPool 7000, StopEvent.shutdownCancelCommandPool 7000,
       StopEvent.closeResChan].getLast? = some StopEvent.closeResChan) ∧
     (∀ e ∈ [StopEvent.shutdownSendCommandPool 7000, StopEvent.shutdownCancelCommandPool 7000,
             StopEvent.closeResChan].dropLast, e ≠ StopEvent.closeResChan)) :=
  ⟨by decide,
   Stop_timeout_and_close_last 7000 StopType.softStop
     [StopEvent.shutdownSendCommandPool 7000, StopEvent.shutdownCancelCommandPool 7000,
      StopEvent.closeResChan] (by decide)⟩

/-- A successful pool submission appends exactly one fresh queued job. -/
theorem Pool.submit_ok (pool : Pool) (jid : String) (pool' : Pool)
    (h : Pool.submit pool jid = Except.ok pool') :
    pool' = { pool with
      jobs := pool.jobs ++ [{ jobId := jid, queued := true, token := TokenState.active }] } := by
  unfold Pool.submit at h
  split at h
  · cases h
  · split at h
    · cases h
    · exact (Except.ok.inj h).symm

/-- A targeted pool cancel keeps every job whose id differs from the target. -/
theorem cancelFound_keeps_other (pool : Pool) (x : String) (j : Job)
    (hj : j ∈ pool.jobs) (hne : j.jobId ≠ x) :
    j ∈ (Pool.cancelFound pool x).2.jobs := by
  unfold Pool.cancelFound
  split
  · exact List.mem_filterMap.mpr ⟨j, hj, by simp [hne]⟩
  · exact hj

/-- After a targeted pool cancel, every job either was already in the pool or
carries exactly the cancelled id (the signalled job). -/
theorem cancelFound_no_new_other (pool : Pool) (x : String) (j : Job)
    (hj : j ∈ (Pool.cancelFound pool x).2.jobs) : j ∈ pool.jobs ∨ j.jobId = x := by
  unfold Pool.cancelFound at hj
  split at hj
  · rcases List.mem_filterMap.mp hj with ⟨a, ha, hfa⟩
    by_cases hax : a.jobId = x
    · right
      rw [if_pos hax] at hfa
      by_cases haq : a.queued = true
      · rw [if_pos haq] at hfa; cases hfa
      · rw [if_neg haq] at hfa
        rw [← Option.some.inj hfa]
        exact hax
    · left
      rw [if_neg hax] at hfa
      rw [← Option.some.inj hfa]
      exact ha
  · left; exact hj

/-- C8: submit and Cancel enqueue under the job id derived as the association
id when the document is an association and the message id otherwise (Cancel
either enqueues that one job or, on rejection, leaves the pool's jobs as they
were); and the cancel job touches the command pool only through the pool's
targeted cancel applied to the cancel-doc's cancel_message_id, which keeps
every job with a different id and can only remove or signal a job carrying
exactly that id. -/
theorem jobIds_and_cancel_isolation :
    (∀ (docState : DocumentState), jobIdFor docState =
      (if docState.IsAssociation then docState.documentInformation.associationID
       else docState.documentInformation.messageID)) ∧
    (∀ (p : EngineProcessor) (docState : DocumentState) (p' : EngineProcessor),
      EngineProcessor.submit p docState = Except.ok p' →
      p'.sendCommandPool.jobs = p.sendCommandPool.jobs ++
        [{ jobId := jobIdFor docState, queued := true, token := TokenState.active }] ∧
      p'.cancelCommandPool = p.cancelCommandPool) ∧
    (∀ (p : EngineProcessor) (store : DocStore) (docState : DocumentState),
      (EngineProcessor.Cancel p store docState).1.cancelCommandPool.jobs = p.cancelCommandPool.jobs ∨
      (EngineProcessor.Cancel p store docState).1.cancelCommandPool.jobs = p.cancelCommandPool.jobs ++
        [{ jobId := jobIdFor docState, queued := true, token := TokenState.active }]) ∧
    (∀ (pool : Pool) (docState : DocumentState) (store : DocStore),
      (processCancelCommand pool docState store).pool =
        (Pool.cancelFound pool docState.cancelInformation.cancelMessageID).2) ∧
    (∀ (pool : Pool) (docState : DocumentState) (store : DocStore) (j : Job),
      j ∈ pool.jobs → j.jobId ≠ docState.cancelInformation.cancelMessageID →
      j ∈ (processCancelCommand pool docState store).pool.jobs) ∧
    (∀ (pool : Pool) (docState : DocumentState) (store : DocStore) (j : Job),
      j ∈ (processCancelCommand pool docState store).pool.jobs →
      j ∈ pool.jobs ∨ j.jobId = docState.cancelInformation.cancelMessageID) := by
  refine ⟨fun d => rfl, ?_, ?_, fun pool d store => rfl, ?_, ?_⟩
  · intro p d p' h
    cases hs : p.sendCommandPool.submit (jobIdFor d) with
    | error e =>
        simp only [EngineProcessor.submit, hs] at h
        cases h
    | ok pool' =>
        simp only [EngineProcessor.submit, hs, Except.ok.injEq] at h
        have hpool := Pool.submit_ok p.sendCommandPool (jobIdFor d) pool' hs
        rw [← h]
        subst hpool
        exact ⟨rfl, rfl⟩
  · intro p store d
    cases hs : p.cancelCommandPool.submit (jobIdFor d) with
    | error e => left; simp [EngineProcessor.Cancel, hs]
    | ok pool' =>
        right
        have hpool := Pool.submit_ok p.cancelCommandPool (jobIdFor d) pool' hs
        subst hpool
        simp [EngineProcessor.Cancel, hs]
  · intro pool d store j hj hne
    have hwire : (processCancelCommand pool d store).pool =
        (Pool.cancelFound pool d.cancelInformation.cancelMessageID).2 := rfl
    rw [hwire]
    exact cancelFound_keeps_other pool d.cancelInformation.cancelMessageID j hj hne
  · intro pool d store j hj
    have hwire : (processCancelCommand pool d store).pool =
        (Pool.cancelFound pool d.cancelInformation.cancelMessageID).2 := rfl
    rw [hwire] at hj
    exact cancelFound_no_new_other pool d.cancelInformation.cancelMessageID j hj

/-- Witness for C8: a concrete successful submission appends the job keyed by
the message id, and a concrete cancel targeting m9 keeps the unrelated job. -/
theorem jobIds_and_cancel_isolation_witness :
    (EngineProcessor.submit procTwoPools docD1Retry = Except.ok procSubmitted) ∧
    (jobOther ∈ poolOther.jobs ∧ jobOther.jobId ≠ cancelDocC9.cancelInformation.cancelMessageID) ∧
    (procSubmitted.sendCommandPool.jobs = procTwoPools.sendCommandPool.jobs ++
        [{ jobId := jobIdFor docD1Retry, queued := true, token := TokenState.active }] ∧
     procSubmitted.cancelCommandPool = procTwoPools.cancelCommandPool) ∧
    (jobOther ∈ (processCancelCommand poolOther cancelDocC9 emptyStore).pool.jobs) :=
  ⟨by rfl, ⟨by decide, by decide⟩,
   jobIds_and_cancel_isolation.2.1 procTwoPools docD1Retry procSubmitted (by rfl),
   jobIds_and_cancel_isolation.2.2.2.2.1 poolOther cancelDocC9 emptyStore jobOther
     (by decide) (by decide)⟩

/-- C9 evaluated at the failing input: Cancel persists cancel-doc c1 to
pending, and its cancel job then persists it in current and moves it from
current to completed without ever touching the pending copy, so the same
document id is present in two locations (pending and completed) at once. -/
theorem cancelDoc_present_in_two_locations :
    (dirLookup ((processCancelCommand
        (EngineProcessor.Cancel procTwoPools emptyStore cancelDocC9).1.sendCommandPool
        cancelDocC9
        (EngineProcessor.Cancel procTwoPools emptyStore cancelDocC9).2).store.dirOf Location.pending)
      "c1").isSome = true ∧
    (dirLookup ((processCancelCommand
        (EngineProcessor.Cancel procTwoPools emptyStore cancelDocC9).1.sendCommandPool
        cancelDocC9
        (EngineProcessor.Cancel procTwoPools emptyStore cancelDocC9).2).store.dirOf Location.completed)
      "c1").isSome = true := by
  decide

/-- Writing one file leaves the lookup of every other file unchanged. -/
theorem dirLookup_dirWrite_ne (d : DocDir) (docId : String) (doc : DocumentState) (k : String)
    (h : docId ≠ k) : dirLookup (dirWrite d docId doc) k = dirLookup d k := by
  induction d with
  | nil => simp [dirWrite, dirLookup, h]
  | cons kv rest ih =>
      obtain ⟨k', v⟩ := kv
      by_cases hk : k' = docId
      · subst hk
        simp [dirWrite, dirLookup, h]
      · by_cases hkk : k' = k
        · simp [dirWrite, dirLookup, hk, hkk, Ne.symm h]
        · simp [dirWrite, dirLookup, hk, hkk, ih]

/-- Deleting one file leaves the lookup of every other file unchanged. -/
theorem dirLookup_dirErase_ne (d : DocDir) (docId : String) (k : String)
    (h : docId ≠ k) : dirLookup (dirErase d docId) k = dirLookup d k := by
  induction d with
  | nil => rfl
  | cons kv rest ih =>
      obtain ⟨k', v⟩ := kv
      by_cases hk : k' = docId
      · subst hk
        simp [dirErase, dirLookup, h, ih]
      · by_cases hkk : k' = k
        · simp [dirErase, dirLookup, hk, hkk, Ne.symm h]
        · simp [dirErase, dirLookup, hk, hkk, ih]

/-- Looking up a deleted file yields nothing. -/
theorem dirLookup_dirErase_self (d : DocDir) (docId : String) :
    dirLookup (dirErase d docId) docId = none := by
  induction d with
  | nil => rfl
  | cons kv rest ih =>
      obtain ⟨k', v⟩ := kv
      by_cases hk : k' = docId
      · simp [dirErase, hk, ih]
      · simp [dirErase, dirLookup, hk, ih]

/-- Persisting into one location leaves every other location's directory unchanged. -/
theorem persistData_dirOf_ne (s : DocStore) (docId : String) (loc0 : Location)
    (doc : DocumentState) (loc : Location) (h : loc0 ≠ loc) :
    (persistData s docId loc0 doc).dirOf loc = s.dirOf loc := by
  simp only [persistData, DocStore.dirOf_setDir]
  rw [if_neg h]

/-- Persisting one document leaves the lookup of every other document unchanged,
in every location. -/
theorem persistData_lookup_ne (s : DocStore) (docId : String) (loc0 : Location)
    (doc : DocumentState) (loc : Location) (k : String) (h : docId ≠ k) :
    dirLookup ((persistData s docId loc0 doc).dirOf loc) k = dirLookup (s.dirOf loc) k := by
  simp only [persistData, DocStore.dirOf_setDir]
  by_cases h0 : loc0 = loc
  · rw [if_pos h0, dirLookup_dirWrite_ne (s.dirOf loc0) docId doc k h, h0]
  · rw [if_neg h0]

/-- Moving one document leaves uninvolved locations' directories unchanged. -/
theorem moveDocumentState_dirOf_ne (s : DocStore) (docId : String) (src dst : Location)
    (loc : Location) (h1 : src ≠ loc) (h2 : dst ≠ loc) :
    (moveDocumentState s docId src dst).dirOf loc = s.dirOf loc := by
  cases hm : dirLookup (s.dirOf src) docId with
  | none => simp only [moveDocumentState, hm]
  | some doc =>
      simp only [moveDocumentState, hm, DocStore.dirOf_setDir]
      rw [if_neg h2, if_neg h1]

/-- Moving one document leaves the lookup of every other document unchanged,
in every location. -/
theorem moveDocumentState_lookup_ne (s : DocStore) (docId : String) (src dst : Location)
    (loc : Location) (k : String) (h : docId ≠ k) :
    dirLookup ((moveDocumentState s docId src dst).dirOf loc) k = dirLookup (s.dirOf loc) k := by
  cases hm : dirLookup (s.dirOf src) docId with
  | none => simp only [moveDocumentState, hm]
  | some doc =>
      simp only [moveDocumentState, hm, DocStore.dirOf_setDir]
      by_cases h2 : dst = loc
      · rw [if_pos h2, dirLookup_dirWrite_ne (s.dirOf dst) docId doc k h, h2]
      · rw [if_neg h2]
        by_cases h1 : src = loc
        · rw [if_pos h1, dirLookup_dirErase_ne (s.dirOf src) docId k h, h1]
        · rw [if_neg h1]

/-- A present source document ends up in the destination and vanishes from the
source when moved. -/
theorem moveDocumentState_lookup_self (s : DocStore) (docId : String) (src dst : Location)
    (doc : DocumentState) (hm : dirLookup (s.dirOf src) docId = some doc) (hne : src ≠ dst) :
    dirLookup ((moveDocumentState s docId src dst).dirOf dst) docId = some doc ∧
    dirLookup ((moveDocumentState s docId src dst).dirOf src) docId = none := by
  simp only [moveDocumentState, hm, DocStore.dirOf_setDir]
  constructor
  · rw [if_pos trivial]
    exact dirLookup_dirWrite_self (s.dirOf dst) docId doc
  · rw [if_neg (fun hh => hne hh.symm), if_pos trivial]
    exact dirLookup_dirErase_self (s.dirOf src) docId

/-- In a directory with pairwise distinct file names, every listed entry is
found by lookup. -/
theorem dirLookup_self_of_nodup (l : DocDir) :
    (l.map Prod.fst).Nodup → ∀ fd ∈ l, dirLookup l fd.1 = some fd.2 := by
  induction l with
  | nil => intro _ fd hfd; cases hfd
  | cons kv rest ih =>
      intro hn fd hfd
      obtain ⟨k, v⟩ := kv
      rw [List.map_cons] at hn
      obtain ⟨hknot, hn'⟩ := List.nodup_cons.mp hn
      rcases List.mem_cons.mp hfd with heq | hfd'
      · subst heq
        simp [dirLookup]
      · have hne : k ≠ fd.1 := fun hh => hknot (by rw [hh]; exact List.mem_map.mpr ⟨fd, hfd', rfl⟩)
        simp only [dirLookup, if_neg hne]
        exact ih hn' fd hfd'

/-- In a directory with pairwise distinct file names, an entry is determined by
its file name. -/
theorem assoc_unique_of_nodup (l : DocDir) (hn : (l.map Prod.fst).Nodup) :
    ∀ a, a ∈ l → ∀ b, b ∈ l → a.1 = b.1 → a = b := by
  intro a ha b hb hab
  obtain ⟨a1, a2⟩ := a
  obtain ⟨b1, b2⟩ := b
  simp only at hab
  subst hab
  have h1 := dirLookup_self_of_nodup l hn (a1, a2) ha
  have h2 := dirLookup_self_of_nodup l hn (a1, b2) hb
  simp only at h1 h2
  rw [h1] at h2
  rw [Option.some.inj h2]

/-- The supported-type check only reads the supported-type list. -/
theorem isSupported_congr (p q : EngineProcessor) (h : q.supportedDocTypes = p.supportedDocTypes)
    (t : String) : q.isSupportedDocumentType t = p.isSupportedDocumentType t := by
  simp [EngineProcessor.isSupportedDocumentType, h]

/-- A successful submit appends exactly the derived job to the send-command
pool and leaves the rest of the processor unchanged. -/
theorem submit_ok_char (p : EngineProcessor) (d : DocumentState) (p' : EngineProcessor)
    (h : EngineProcessor.submit p d = Except.ok p') :
    p'.sendCommandPool.jobs = p.sendCommandPool.jobs ++
      [{ jobId := jobIdFor d, queued := true, token := TokenState.active }] ∧
    p'.cancelCommandPool = p.cancelCommandPool ∧
    p'.supportedDocTypes = p.supportedDocTypes := by
  cases hs : p.sendCommandPool.submit (jobIdFor d) with
  | error e =>
      simp only [EngineProcessor.submit, hs] at h
      cases h
  | ok pool' =>
      simp only [EngineProcessor.submit, hs, Except.ok.injEq] at h
      have hpool := Pool.submit_ok p.sendCommandPool (jobIdFor d) pool' hs
      subst hpool
      rw [← h]
      exact ⟨rfl, rfl, rfl⟩

/-- One iteration of the current-recovery loop: the head document determines
the next processor and store, which touch only the head's file name and
document id (in current and corrupt), never the cancel pool or the supported
set, and extend the send pool at most by the head's recovery job. -/
theorem inProgressStep (retryLimit : Int) (p : EngineProcessor) (store : DocStore)
    (g : String) (d : DocumentState) :
    ∃ p1 store1,
      (∀ rest, processInProgressLoop retryLimit p store ((g, d) :: rest) =
        processInProgressLoop retryLimit p1 store1 rest) ∧
      (∀ k, g ≠ k → d.documentInformation.documentID ≠ k →
        dirLookup (store1.dirOf Location.current) k = dirLookup (store.dirOf Location.current) k ∧
        dirLookup (store1.dirOf Location.corrupt) k = dirLookup (store.dirOf Location.corrupt) k) ∧
      p1.supportedDocTypes = p.supportedDocTypes ∧
      p1.cancelCommandPool = p.cancelCommandPool ∧
      (p1.sendCommandPool.jobs = p.sendCommandPool.jobs ∨
        (d.documentInformation.runCount < retryLimit ∧
         p.isSupportedDocumentType d.documentType = true ∧
         p1.sendCommandPool.jobs = p.sendCommandPool.jobs ++
           [{ jobId := jobIdFor (incrementRunCount d), queued := true, token := TokenState.active }])) := by
  by_cases hge : d.documentInformation.runCount ≥ retryLimit
  · refine ⟨p, moveDocumentState store g Location.current Location.corrupt,
      fun rest => ?_, fun k hgk _ => ⟨?_, ?_⟩, rfl, rfl, Or.inl rfl⟩
    · simp only [processInProgressLoop]
      rw [if_pos hge]
    · exact moveDocumentState_lookup_ne store g Location.current Location.corrupt Location.current k hgk
    · exact moveDocumentState_lookup_ne store g Location.current Location.corrupt Location.corrupt k hgk
  · by_cases hsup : p.isSupportedDocumentType (incrementRunCount d).documentType = true
    · cases hsub : p.submit (incrementRunCount d) with
      | ok p' =>
          obtain ⟨hjobs', hcpool', htypes'⟩ := submit_ok_char p (incrementRunCount d) p' hsub
          refine ⟨p',
            persistData store (incrementRunCount d).documentInformation.documentID Location.current
              (incrementRunCount d),
            fun rest => ?_, fun k _hgk hdk => ⟨?_, ?_⟩, htypes', hcpool',
            Or.inr ⟨not_le.mp hge, ?_, hjobs'⟩⟩
          · simp only [processInProgressLoop]
            rw [if_neg hge, if_pos hsup]
            simp only [hsub]
          · exact persistData_lookup_ne store _ Location.current (incrementRunCount d)
              Location.current k (by rw [incrementRunCount_documentID]; exact hdk)
          · rw [persistData_dirOf_ne store _ Location.current (incrementRunCount d)
              Location.corrupt (by decide)]
          · rw [← incrementRunCount_documentType d]
            exact hsup
      | error e =>
          refine ⟨p,
            moveDocumentState
              (persistData store (incrementRunCount d).documentInformation.documentID
                Location.current (incrementRunCount d)) g Location.current Location.corrupt,
            fun rest => ?_, fun k hgk hdk => ⟨?_, ?_⟩, rfl, rfl, Or.inl rfl⟩
          · simp only [processInProgressLoop]
            rw [if_neg hge, if_pos hsup]
            simp only [hsub]
          · rw [moveDocumentState_lookup_ne _ g Location.current Location.corrupt Location.current k hgk,
                persistData_lookup_ne store _ Location.current (incrementRunCount d) Location.current k
                  (by rw [incrementRunCount_documentID]; exact hdk)]
          · rw [moveDocumentState_lookup_ne _ g Location.current Location.corrupt Location.corrupt k hgk,
                persistData_dirOf_ne store _ Location.current (incrementRunCount d)
                  Location.corrupt (by decide)]
    · have hfalse : p.isSupportedDocumentType (incrementRunCount d).documentType = false := by
        cases hX : p.isSupportedDocumentType (incrementRunCount d).documentType with
        | false => rfl
        | true => exact absurd hX hsup
      refine ⟨p,
        persistData store (incrementRunCount d).documentInformation.documentID Location.current
          (incrementRunCount d),
        fun rest => ?_, fun k _hgk hdk => ⟨?_, ?_⟩, rfl, rfl, Or.inl rfl⟩
      · simp only [processInProgressLoop]
        rw [if_neg hge, hfalse]
        simp only [Bool.false_eq_true, if_false]
      · exact persistData_lookup_ne store _ Location.current (incrementRunCount d)
          Location.current k (by rw [incrementRunCount_documentID]; exact hdk)
      · rw [persistData_dirOf_ne store _ Location.current (incrementRunCount d)
          Location.corrupt (by decide)]

/-- One iteration of the pending-recovery loop: an unsupported head changes
nothing at all; a supported head is Submitted, touching only its document id
(in pending and corrupt), never current, completed, the cancel pool or the
supported set, and extending the send pool at most by its job. -/
theorem pendingStep (p : EngineProcessor) (store : DocStore) (g : String) (d : DocumentState) :
    ∃ p1 store1,
      (∀ rest, processPendingLoop p store ((g, d) :: rest) = processPendingLoop p1 store1 rest) ∧
      (p.isSupportedDocumentType d.documentType = false → p1 = p ∧ store1 = store) ∧
      (∀ k, d.documentInformation.documentID ≠ k →
        dirLookup (store1.dirOf Location.pending) k = dirLookup (store.dirOf Location.pending) k ∧
        dirLookup (store1.dirOf Location.corrupt) k = dirLookup (store.dirOf Location.corrupt) k) ∧
      store1.dirOf Location.current = store.dirOf Location.current ∧
      store1.dirOf Location.completed = store.dirOf Location.completed ∧
      p1.supportedDocTypes = p.supportedDocTypes ∧
      p1.cancelCommandPool = p.cancelCommandPool ∧
      (p1.sendCommandPool.jobs = p.sendCommandPool.jobs ∨
        (p.isSupportedDocumentType d.documentType = true ∧
         p1.sendCommandPool.jobs = p.sendCommandPool.jobs ++
           [{ jobId := jobIdFor d, queued := true, token := TokenState.active }])) := by
  by_cases hsup : p.isSupportedDocumentType d.documentType = true
  · cases hs : p.submit d with
    | ok p' =>
        obtain ⟨hjobs', hcpool', htypes'⟩ := submit_ok_char p d p' hs
        refine ⟨p',
          persistData store d.documentInformation.documentID Location.pending d,
          fun rest => ?_, fun hcontra => absurd hsup (by rw [hcontra]; exact Bool.false_ne_true),
          fun k hdk => ⟨?_, ?_⟩, ?_, ?_, htypes', hcpool', Or.inr ⟨hsup, hjobs'⟩⟩
        · simp only [processPendingLoop]
          rw [if_pos hsup]
          simp only [EngineProcessor.Submit, hs]
        · exact persistData_lookup_ne store _ Location.pending d Location.pending k hdk
        · rw [persistData_dirOf_ne store _ Location.pending d Location.corrupt (by decide)]
        · rw [persistData_dirOf_ne store _ Location.pending d Location.current (by decide)]
        · rw [persistData_dirOf_ne store _ Location.pending d Location.completed (by decide)]
    | error e =>
        refine ⟨p,
          moveDocumentState (persistData store d.documentInformation.documentID Location.pending d)
            d.documentInformation.documentID Location.pending Location.corrupt,
          fun rest => ?_, fun hcontra => absurd hsup (by rw [hcontra]; exact Bool.false_ne_true),
          fun k hdk => ⟨?_, ?_⟩, ?_, ?_, rfl, rfl, Or.inl rfl⟩
        · simp only [processPendingLoop]
          rw [if_pos hsup]
          simp only [EngineProcessor.Submit, hs]
        · rw [moveDocumentState_lookup_ne _ _ Location.pending Location.corrupt Location.pending k hdk,
              persistData_lookup_ne store _ Location.pending d Location.pending k hdk]
        · rw [moveDocumentState_lookup_ne _ _ Location.pending Location.corrupt Location.corrupt k hdk,
              persistData_dirOf_ne store _ Location.pending d Location.corrupt (by decide)]
        · rw [moveDocumentState_dirOf_ne _ _ Location.pending Location.corrupt Location.current
                (by decide) (by decide),
              persistData_dirOf_ne store _ Location.pending d Location.current (by decide)]
        · rw [moveDocumentState_dirOf_ne _ _ Location.pending Location.corrupt Location.completed
                (by decide) (by decide),
              persistData_dirOf_ne store _ Location.pending d Location.completed (by decide)]
  · have hfalse : p.isSupportedDocumentType d.documentType = false := by
      cases hX : p.isSupportedDocumentType d.documentType with
      | false => rfl
      | true => exact absurd hX hsup
    refine ⟨p, store, fun rest => ?_, fun _ => ⟨rfl, rfl⟩, fun k _ => ⟨rfl, rfl⟩,
      rfl, rfl, rfl, rfl, Or.inl rfl⟩
    simp only [processPendingLoop]
    rw [hfalse]
    simp only [Bool.false_eq_true, if_false]

/-- The current-recovery loop never touches a file name that is not among the
listed ones (in current or corrupt), when file names match document ids. -/
theorem processInProgressLoop_preserves (retryLimit : Int)
    (files : List (String × DocumentState)) :
    ∀ (p : EngineProcessor) (store : DocStore) (k : String),
    (∀ fd ∈ files, fd.1 = fd.2.documentInformation.documentID) →
    (∀ fd ∈ files, fd.1 ≠ k) →
    dirLookup (((processInProgressLoop retryLimit p store files).2).dirOf Location.current) k =
      dirLookup (store.dirOf Location.current) k ∧
    dirLookup (((processInProgressLoop retryLimit p store files).2).dirOf Location.corrupt) k =
      dirLookup (store.dirOf Location.corrupt) k := by
  induction files with
  | nil => intro p store k _ _; exact ⟨rfl, rfl⟩
  | cons fd rest ih =>
      intro p store k hkeys hne
      obtain ⟨g, d⟩ := fd
      have hgk : g ≠ k := hne (g, d) (List.mem_cons_self _ _)
      have hdk : d.documentInformation.documentID ≠ k := by
        rw [← hkeys (g, d) (List.mem_cons_self _ _)]
        exact hgk
      obtain ⟨p1, store1, heq, hpres, _, _, _⟩ := inProgressStep retryLimit p store g d
      rw [heq rest]
      obtain ⟨hc, hco⟩ := hpres k hgk hdk
      have hrest := ih p1 store1 k
        (fun fd hfd => hkeys fd (List.mem_cons_of_mem _ hfd))
        (fun fd hfd => hne fd (List.mem_cons_of_mem _ hfd))
      rw [hrest.1, hrest.2, hc, hco]
      exact ⟨rfl, rfl⟩

/-- Every job the current-recovery loop adds to the send pool is the recovery
job of a listed document that was below the retry limit and of supported type;
the cancel pool and supported set are untouched. -/
theorem processInProgressLoop_jobs (retryLimit : Int)
    (files : List (String × DocumentState)) :
    ∀ (p : EngineProcessor) (store : DocStore),
    (∀ j ∈ ((processInProgressLoop retryLimit p store files).1).sendCommandPool.jobs,
      j ∈ p.sendCommandPool.jobs ∨
      ∃ fd, fd ∈ files ∧ fd.2.documentInformation.runCount < retryLimit ∧
        p.isSupportedDocumentType fd.2.documentType = true ∧
        j = { jobId := jobIdFor (incrementRunCount fd.2), queued := true, token := TokenState.active }) ∧
    ((processInProgressLoop retryLimit p store files).1).cancelCommandPool = p.cancelCommandPool ∧
    ((processInProgressLoop retryLimit p store files).1).supportedDocTypes = p.supportedDocTypes := by
  induction files with
  | nil => intro p store; exact ⟨fun j hj => Or.inl hj, rfl, rfl⟩
  | cons fd rest ih =>
      intro p store
      obtain ⟨g, d⟩ := fd
      obtain ⟨p1, store1, heq, _, htypes, hcpool, hjobs⟩ := inProgressStep retryLimit p store g d
      rw [heq rest]
      obtain ⟨ihj, ihc, iht⟩ := ih p1 store1
      refine ⟨?_, ihc.trans hcpool, iht.trans htypes⟩
      intro j hj
      rcases ihj j hj with hj1 | ⟨fd, hfd, hlt, hsupp1, hjeq⟩
      · rcases hjobs with h1 | ⟨hltd, hsupd, h1⟩
        · rw [h1] at hj1
          exact Or.inl hj1
        · rw [h1] at hj1
          rcases List.mem_append.mp hj1 with h | h
          · exact Or.inl h
          · right
            refine ⟨(g, d), List.mem_cons_self _ _, hltd, hsupd, ?_⟩
            simpa using h
      · right
        exact ⟨fd, List.mem_cons_of_mem _ hfd, hlt,
          (isSupported_congr p p1 htypes fd.2.documentType) ▸ hsupp1, hjeq⟩

/-- The pending-recovery loop never touches the pending or corrupt file of a
name whose listed entries are all of unsupported type, when file names match
document ids. -/
theorem processPendingLoop_preserves (files : List (String × DocumentState)) :
    ∀ (p : EngineProcessor) (store : DocStore) (k : String),
    (∀ fd ∈ files, fd.1 = fd.2.documentInformation.documentID) →
    (∀ fd ∈ files, fd.1 = k → p.isSupportedDocumentType fd.2.documentType = false) →
    dirLookup (((processPendingLoop p store files).2).dirOf Location.pending) k =
      dirLookup (store.dirOf Location.pending) k ∧
    dirLookup (((processPendingLoop p store files).2).dirOf Location.corrupt) k =
      dirLookup (store.dirOf Location.corrupt) k := by
  induction files with
  | nil => intro p store k _ _; exact ⟨rfl, rfl⟩
  | cons fd rest ih =>
      intro p store k hkeys hcond
      obtain ⟨g, d⟩ := fd
      obtain ⟨p1, store1, heq, hunsup, hni, _, _, htypes, _, _⟩ := pendingStep p store g d
      rw [heq rest]
      have hkeys' : ∀ fd ∈ rest, fd.1 = fd.2.documentInformation.documentID :=
        fun fd hfd => hkeys fd (List.mem_cons_of_mem _ hfd)
      have hcond1 : ∀ fd ∈ rest, fd.1 = k → p1.isSupportedDocumentType fd.2.documentType = false :=
        fun fd hfd hk1 => by
          rw [isSupported_congr p p1 htypes fd.2.documentType]
          exact hcond fd (List.mem_cons_of_mem _ hfd) hk1
      by_cases hgk : g = k
      · obtain ⟨hp1, hs1⟩ := hunsup (hcond (g, d) (List.mem_cons_self _ _) hgk)
        rw [hp1, hs1]
        exact ih p store k hkeys' (fun fd hfd hk1 => hcond fd (List.mem_cons_of_mem _ hfd) hk1)
      · have hdk : d.documentInformation.documentID ≠ k := by
          rw [← hkeys (g, d) (List.mem_cons_self _ _)]
          exact hgk
        obtain ⟨hpen, hcor⟩ := hni k hdk
        have hrest := ih p1 store1 k hkeys' hcond1
        rw [hrest.1, hrest.2, hpen, hcor]
        exact ⟨rfl, rfl⟩

/-- The pending-recovery loop never writes to the current or completed
directory. -/
theorem processPendingLoop_other_dirs (files : List (String × DocumentState)) :
    ∀ (p : EngineProcessor) (store : DocStore),
    ((processPendingLoop p store files).2).dirOf Location.current = store.dirOf Location.current ∧
    ((processPendingLoop p store files).2).dirOf Location.completed = store.dirOf Location.completed := by
  induction files with
  | nil => intro p store; exact ⟨rfl, rfl⟩
  | cons fd rest ih =>
      intro p store
      obtain ⟨g, d⟩ := fd
      obtain ⟨p1, store1, heq, _, _, hcur, hcomp, _, _, _⟩ := pendingStep p store g d
      rw [heq rest]
      have := ih p1 store1
      exact ⟨this.1.trans hcur, this.2.trans hcomp⟩

/-- Every job the pending-recovery loop adds to the send pool is the job of a
listed document of supported type; the cancel pool and supported set are
untouched. -/
theorem processPendingLoop_jobs (files : List (String × DocumentState)) :
    ∀ (p : EngineProcessor) (store : DocStore),
    (∀ j ∈ ((processPendingLoop p store files).1).sendCommandPool.jobs,
      j ∈ p.sendCommandPool.jobs ∨
      ∃ fd, fd ∈ files ∧ p.isSupportedDocumentType fd.2.documentType = true ∧
        j = { jobId := jobIdFor fd.2, queued := true, token := TokenState.active }) ∧
    ((processPendingLoop p store files).1).cancelCommandPool = p.cancelCommandPool ∧
    ((processPendingLoop p store files).1).supportedDocTypes = p.supportedDocTypes := by
  induction files with
  | nil => intro p store; exact ⟨fun j hj => Or.inl hj, rfl, rfl⟩
  | cons fd rest ih =>
      intro p store
      obtain ⟨g, d⟩ := fd
      obtain ⟨p1, store1, heq, _, _, _, _, htypes, hcpool, hjobs⟩ := pendingStep p store g d
      rw [heq rest]
      obtain ⟨ihj, ihc, iht⟩ := ih p1 store1
      refine ⟨?_, ihc.trans hcpool, iht.trans htypes⟩
      intro j hj
      rcases ihj j hj with hj1 | ⟨fd, hfd, hsupp1, hjeq⟩
      · rcases hjobs with h1 | ⟨hsupd, h1⟩
        · rw [h1] at hj1
          exact Or.inl hj1
        · rw [h1] at hj1
          rcases List.mem_append.mp hj1 with h | h
          · exact Or.inl h
          · right
            refine ⟨(g, d), List.mem_cons_self _ _, hsupd, ?_⟩
            simpa using h
      · right
        exact ⟨fd, List.mem_cons_of_mem _ hfd,
          (isSupported_congr p p1 htypes fd.2.documentType) ▸ hsupp1, hjeq⟩

/-- Per-document outcome of the current-recovery loop, for the document at an
arbitrary position of a listing whose file names are the document ids, are
pairwise distinct, and match the current directory.  A document at or above
the retry limit is moved to corrupt unchanged; below the limit its run count
is incremented and the incremented copy persisted: it stays in current when
its type is unsupported or when the submission at the processor state reached
before it (the loop over the preceding listing) succeeds, and it is moved to
corrupt exactly when that submission fails. -/
theorem processInProgressLoop_outcome (retryLimit : Int) (pre : List (String × DocumentState)) :
    ∀ (p : EngineProcessor) (store : DocStore) (fname : String) (doc : DocumentState)
      (post : List (String × DocumentState)),
    (∀ fd ∈ pre ++ (fname, doc) :: post, fd.1 = fd.2.documentInformation.documentID) →
    (((pre ++ (fname, doc) :: post).map Prod.fst).Nodup) →
    (∀ fd ∈ pre ++ (fname, doc) :: post, dirLookup (store.dirOf Location.current) fd.1 = some fd.2) →
    (doc.documentInformation.runCount ≥ retryLimit →
      dirLookup (((processInProgressLoop retryLimit p store (pre ++ (fname, doc) :: post)).2).dirOf
        Location.corrupt) fname = some doc ∧
      dirLookup (((processInProgressLoop retryLimit p store (pre ++ (fname, doc) :: post)).2).dirOf
        Location.current) fname = none) ∧
    (doc.documentInformation.runCount < retryLimit →
      (p.isSupportedDocumentType doc.documentType = false →
        dirLookup (((processInProgressLoop retryLimit p store (pre ++ (fname, doc) :: post)).2).dirOf
          Location.current) fname = some (incrementRunCount doc)) ∧
      (∀ q', EngineProcessor.submit (processInProgressLoop retryLimit p store pre).1
          (incrementRunCount doc) = Except.ok q' →
        dirLookup (((processInProgressLoop retryLimit p store (pre ++ (fname, doc) :: post)).2).dirOf
          Location.current) fname = some (incrementRunCount doc)) ∧
      (∀ e, p.isSupportedDocumentType doc.documentType = true →
        EngineProcessor.submit (processInProgressLoop retryLimit p store pre).1
          (incrementRunCount doc) = Except.error e →
        dirLookup (((processInProgressLoop retryLimit p store (pre ++ (fname, doc) :: post)).2).dirOf
          Location.corrupt) fname = some (incrementRunCount doc) ∧
        dirLookup (((processInProgressLoop retryLimit p store (pre ++ (fname, doc) :: post)).2).dirOf
          Location.current) fname = none)) := by
  induction pre with
  | nil =>
      intro p store fname doc post hk hn hm
      simp only [List.nil_append] at hk hn hm ⊢
      have hfid : fname = doc.documentInformation.documentID :=
        hk (fname, doc) (List.mem_cons_self _ _)
      have hdoc : dirLookup (store.dirOf Location.current) fname = some doc :=
        hm (fname, doc) (List.mem_cons_self _ _)
      rw [List.map_cons] at hn
      obtain ⟨hfnot, hn'⟩ := List.nodup_cons.mp hn
      have hpostne : ∀ fd ∈ post, fd.1 ≠ fname :=
        fun fd hfd hh => hfnot (by rw [← hh]; exact List.mem_map.mpr ⟨fd, hfd, rfl⟩)
      have hk' : ∀ fd ∈ post, fd.1 = fd.2.documentInformation.documentID :=
        fun fd hfd => hk fd (List.mem_cons_of_mem _ hfd)
      have hincid : (incrementRunCount doc).documentInformation.documentID = fname := by
        rw [incrementRunCount_documentID, ← hfid]
      constructor
      · intro hge
        simp only [processInProgressLoop]
        rw [if_pos hge]
        have hmove := moveDocumentState_lookup_self store fname Location.current Location.corrupt
          doc hdoc (by decide)
        have hni := processInProgressLoop_preserves retryLimit post p
          (moveDocumentState store fname Location.current Location.corrupt) fname hk' hpostne
        rw [hni.1, hni.2]
        exact ⟨hmove.1, hmove.2⟩
      · intro hlt
        have hnge : ¬ (doc.documentInformation.runCount ≥ retryLimit) := not_le.mpr hlt
        have hcur1 : dirLookup
            ((persistData store (incrementRunCount doc).documentInformation.documentID
              Location.current (incrementRunCount doc)).dirOf Location.current) fname =
            some (incrementRunCount doc) := by
          simp only [persistData, DocStore.dirOf_setDir]
          rw [if_pos trivial, hincid]
          exact dirLookup_dirWrite_self _ _ _
        refine ⟨?_, ?_, ?_⟩
        · intro hsupf
          have hsupf' : p.isSupportedDocumentType (incrementRunCount doc).documentType = false := by
            rw [incrementRunCount_documentType]
            exact hsupf
          simp only [processInProgressLoop]
          rw [if_neg hnge, hsupf']
          simp only [Bool.false_eq_true, if_false]
          have hni := processInProgressLoop_preserves retryLimit post p
            (persistData store (incrementRunCount doc).documentInformation.documentID
              Location.current (incrementRunCount doc)) fname hk' hpostne
          rw [hni.1]
          exact hcur1
        · intro q' hok
          have hok' : EngineProcessor.submit p (incrementRunCount doc) = Except.ok q' := hok
          by_cases hsup : p.isSupportedDocumentType (incrementRunCount doc).documentType = true
          · simp only [processInProgressLoop]
            rw [if_neg hnge, if_pos hsup]
            simp only [hok']
            have hni := processInProgressLoop_preserves retryLimit post q'
              (persistData store (incrementRunCount doc).documentInformation.documentID
                Location.current (incrementRunCount doc)) fname hk' hpostne
            rw [hni.1]
            exact hcur1
          · have hsupf' : p.isSupportedDocumentType (incrementRunCount doc).documentType = false := by
              cases hX : p.isSupportedDocumentType (incrementRunCount doc).documentType with
              | false => rfl
              | true => exact absurd hX hsup
            simp only [processInProgressLoop]
            rw [if_neg hnge, hsupf']
            simp only [Bool.false_eq_true, if_false]
            have hni := processInProgressLoop_preserves retryLimit post p
              (persistData store (incrementRunCount doc).documentInformation.documentID
                Location.current (incrementRunCount doc)) fname hk' hpostne
            rw [hni.1]
            exact hcur1
        · intro e hsupt herr
          have herr' : EngineProcessor.submit p (incrementRunCount doc) = Except.error e := herr
          have hsup' : p.isSupportedDocumentType (incrementRunCount doc).documentType = true := by
            rw [incrementRunCount_documentType]
            exact hsupt
          simp only [processInProgressLoop]
          rw [if_neg hnge, if_pos hsup']
          simp only [herr']
          have hmove := moveDocumentState_lookup_self
            (persistData store (incrementRunCount doc).documentInformation.documentID
              Location.current (incrementRunCount doc))
            fname Location.current Location.corrupt (incrementRunCount doc) hcur1 (by decide)
          have hni := processInProgressLoop_preserves retryLimit post p
            (moveDocumentState
              (persistData store (incrementRunCount doc).documentInformation.documentID
                Location.current (incrementRunCount doc))
              fname Location.current Location.corrupt) fname hk' hpostne
          rw [hni.1, hni.2]
          exact ⟨hmove.1, hmove.2⟩
  | cons x pre' ih =>
      obtain ⟨g, d⟩ := x
      intro p store fname doc post hk hn hm
      rw [List.cons_append] at hk hn hm ⊢
      rw [List.map_cons] at hn
      obtain ⟨hgnot, hn'⟩ := List.nodup_cons.mp hn
      obtain ⟨p1, store1, heq, hpres, htypes, _, _⟩ := inProgressStep retryLimit p store g d
      have hk' : ∀ fd ∈ pre' ++ (fname, doc) :: post, fd.1 = fd.2.documentInformation.documentID :=
        fun fd hfd => hk fd (List.mem_cons_of_mem _ hfd)
      have hm' : ∀ fd ∈ pre' ++ (fname, doc) :: post,
          dirLookup (store1.dirOf Location.current) fd.1 = some fd.2 := by
        intro fd hfd
        have hgne : g ≠ fd.1 := fun hgeq => hgnot (by rw [hgeq]; exact List.mem_map.mpr ⟨fd, hfd, rfl⟩)
        have hdne : d.documentInformation.documentID ≠ fd.1 := by
          rw [← hk (g, d) (List.mem_cons_self _ _)]
          exact hgne
        rw [(hpres fd.1 hgne hdne).1]
        exact hm fd (List.mem_cons_of_mem _ hfd)
      have hout := ih p1 store1 fname doc post hk' hn' hm'
      have hsupeq : ∀ t, p1.isSupportedDocumentType t = p.isSupportedDocumentType t :=
        isSupported_congr p p1 htypes
      simp only [hsupeq] at hout
      rw [heq (pre' ++ (fname, doc) :: post), heq pre']
      exact hout

/-- C2 amended: on Start's recovery of the current directory (with file names
equal to the document ids and pairwise distinct, as on disk), a document at an
arbitrary position of the listing whose stored run_count is at least the retry
limit is moved to corrupt unchanged, with no increment and no persist; every
other document has its run_count incremented by exactly one and the
incremented copy persisted: it stays in current when its type is unsupported
or when the pool submission at the processor state reached before it succeeds,
and it lands in corrupt exactly when that submission fails.  Every job the
recovery adds to the send pool stems from a below-limit supported document, so
a retry-exhausted document is never enqueued and can never emit a result. -/
theorem processInProgress_retry_amended (retryLimit : Int) (p : EngineProcessor) (store : DocStore)
    (pre post : List (String × DocumentState)) (fname : String) (doc : DocumentState)
    (hsplit : store.current = pre ++ (fname, doc) :: post)
    (hkeys : ∀ fd ∈ store.current, fd.1 = fd.2.documentInformation.documentID)
    (hnodup : (store.current.map Prod.fst).Nodup) :
    (doc.documentInformation.runCount ≥ retryLimit →
      dirLookup (((EngineProcessor.processInProgressDocuments p retryLimit store).2).dirOf
        Location.corrupt) fname = some doc ∧
      dirLookup (((EngineProcessor.processInProgressDocuments p retryLimit store).2).dirOf
        Location.current) fname = none) ∧
    (doc.documentInformation.runCount < retryLimit →
      (p.isSupportedDocumentType doc.documentType = false →
        dirLookup (((EngineProcessor.processInProgressDocuments p retryLimit store).2).dirOf
          Location.current) fname = some (incrementRunCount doc)) ∧
      (∀ q', EngineProcessor.submit (processInProgressLoop retryLimit p store pre).1
          (incrementRunCount doc) = Except.ok q' →
        dirLookup (((EngineProcessor.processInProgressDocuments p retryLimit store).2).dirOf
          Location.current) fname = some (incrementRunCount doc)) ∧
      (∀ e, p.isSupportedDocumentType doc.documentType = true →
        EngineProcessor.submit (processInProgressLoop retryLimit p store pre).1
          (incrementRunCount doc) = Except.error e →
        dirLookup (((EngineProcessor.processInProgressDocuments p retryLimit store).2).dirOf
          Location.corrupt) fname = some (incrementRunCount doc) ∧
        dirLookup (((EngineProcessor.processInProgressDocuments p retryLimit store).2).dirOf
          Location.current) fname = none)) ∧
    (∀ j ∈ (EngineProcessor.processInProgressDocuments p retryLimit store).1.sendCommandPool.jobs,
      j ∈ p.sendCommandPool.jobs ∨
      ∃ fd, fd ∈ store.current ∧ fd.2.documentInformation.runCount < retryLimit ∧
        p.isSupportedDocumentType fd.2.documentType = true ∧
        j = { jobId := jobIdFor (incrementRunCount fd.2), queued := true,
              token := TokenState.active }) := by
  have hm : ∀ fd ∈ pre ++ (fname, doc) :: post,
      dirLookup (store.dirOf Location.current) fd.1 = some fd.2 := by
    intro fd hfd
    exact dirLookup_self_of_nodup store.current hnodup fd (by rw [hsplit]; exact hfd)
  have hout := processInProgressLoop_outcome retryLimit pre p store fname doc post
    (by rw [← hsplit]; exact hkeys) (by rw [← hsplit]; exact hnodup) hm
  refine ⟨?_, ?_, ?_⟩
  · intro hge
    have h1 := hout.1 hge
    rw [← hsplit] at h1
    exact h1
  · intro hlt
    have h2 := hout.2 hlt
    rw [← hsplit] at h2
    exact h2
  · exact (processInProgressLoop_jobs retryLimit store.current p store).1

/-- Witness for the amended C2 at a concrete two-document current directory:
d1 at the retry limit (moved to corrupt unchanged) followed by d9 below it. -/
theorem processInProgress_retry_amended_witness :
    (storeTwoDocs.current = [("d1", docD1Retry)] ++ ("d9", docD9) :: [] ∧
     (∀ fd ∈ storeTwoDocs.current, fd.1 = fd.2.documentInformation.documentID) ∧
     (storeTwoDocs.current.map Prod.fst).Nodup) ∧
    ((docD9.documentInformation.runCount ≥ (2 : Int) →
      dirLookup (((EngineProcessor.processInProgressDocuments procTwoPools 2 storeTwoDocs).2).dirOf
        Location.corrupt) "d9" = some docD9 ∧
      dirLookup (((EngineProcessor.processInProgressDocuments procTwoPools 2 storeTwoDocs).2).dirOf
        Location.current) "d9" = none) ∧
    (docD9.documentInformation.runCount < (2 : Int) →
      (procTwoPools.isSupportedDocumentType docD9.documentType = false →
        dirLookup (((EngineProcessor.processInProgressDocuments procTwoPools 2 storeTwoDocs).2).dirOf
          Location.current) "d9" = some (incrementRunCount docD9)) ∧
      (∀ q', EngineProcessor.submit
          (processInProgressLoop 2 procTwoPools storeTwoDocs [("d1", docD1Retry)]).1
          (incrementRunCount docD9) = Except.ok q' →
        dirLookup (((EngineProcessor.processInProgressDocuments procTwoPools 2 storeTwoDocs).2).dirOf
          Location.current) "d9" = some (incrementRunCount docD9)) ∧
      (∀ e, procTwoPools.isSupportedDocumentType docD9.documentType = true →
        EngineProcessor.submit
          (processInProgressLoop 2 procTwoPools storeTwoDocs [("d1", docD1Retry)]).1
          (incrementRunCount docD9) = Except.error e →
        dirLookup (((EngineProcessor.processInProgressDocuments procTwoPools 2 storeTwoDocs).2).dirOf
          Location.corrupt) "d9" = some (incrementRunCount docD9) ∧
        dirLookup (((EngineProcessor.processInProgressDocuments procTwoPools 2 storeTwoDocs).2).dirOf
          Location.current) "d9" = none)) ∧
    (∀ j ∈ (EngineProcessor.processInProgressDocuments procTwoPools 2 storeTwoDocs).1.sendCommandPool.jobs,
      j ∈ procTwoPools.sendCommandPool.jobs ∨
      ∃ fd, fd ∈ storeTwoDocs.current ∧ fd.2.documentInformation.runCount < (2 : Int) ∧
        procTwoPools.isSupportedDocumentType fd.2.documentType = true ∧
        j = { jobId := jobIdFor (incrementRunCount fd.2), queued := true,
              token := TokenState.active })) :=
  ⟨⟨rfl, by decide, by decide⟩,
   processInProgress_retry_amended 2 procTwoPools storeTwoDocs [("d1", docD1Retry)] []
     "d9" docD9 rfl (by decide) (by decide)⟩

/-- C6 amended: during recovery (file names equal to document ids and pairwise
distinct, as on disk), every pending document of unsupported type is left in
pending unchanged, its corrupt entry untouched, and recovery of pending never
writes to current or completed; every job the pending recovery enqueues stems
from a supported document.  A current document of unsupported type is not
exempt from the current-folder bookkeeping: at or above the retry limit it is
moved to corrupt like any other document, below it its run_count is
incremented and persisted in current; and every job the current recovery
enqueues stems from a below-limit supported document, so unsupported documents
are never enqueued by either phase. -/
theorem recovery_unsupported_behavior (p : EngineProcessor) (store : DocStore) (retryLimit : Int)
    (hkeysP : ∀ fd ∈ store.pending, fd.1 = fd.2.documentInformation.documentID)
    (hnodupP : (store.pending.map Prod.fst).Nodup)
    (hkeysC : ∀ fd ∈ store.current, fd.1 = fd.2.documentInformation.documentID)
    (hnodupC : (store.current.map Prod.fst).Nodup) :
    (∀ fd, fd ∈ store.pending → p.isSupportedDocumentType fd.2.documentType = false →
      dirLookup (((EngineProcessor.processPendingDocuments p store).2).dirOf Location.pending) fd.1 =
        some fd.2 ∧
      dirLookup (((EngineProcessor.processPendingDocuments p store).2).dirOf Location.corrupt) fd.1 =
        dirLookup (store.dirOf Location.corrupt) fd.1) ∧
    (((EngineProcessor.processPendingDocuments p store).2).dirOf Location.current =
        store.dirOf Location.current ∧
     ((EngineProcessor.processPendingDocuments p store).2).dirOf Location.completed =
        store.dirOf Location.completed) ∧
    (∀ j ∈ ((EngineProcessor.processPendingDocuments p store).1).sendCommandPool.jobs,
      j ∈ p.sendCommandPool.jobs ∨
      ∃ fd, fd ∈ store.pending ∧ p.isSupportedDocumentType fd.2.documentType = true ∧
        j = { jobId := jobIdFor fd.2, queued := true, token := TokenState.active }) ∧
    (∀ fd, fd ∈ store.current → p.isSupportedDocumentType fd.2.documentType = false →
      (fd.2.documentInformation.runCount ≥ retryLimit →
        dirLookup (((EngineProcessor.processInProgressDocuments p retryLimit store).2).dirOf
          Location.corrupt) fd.1 = some fd.2 ∧
        dirLookup (((EngineProcessor.processInProgressDocuments p retryLimit store).2).dirOf
          Location.current) fd.1 = none) ∧
      (fd.2.documentInformation.runCount < retryLimit →
        dirLookup (((EngineProcessor.processInProgressDocuments p retryLimit store).2).dirOf
          Location.current) fd.1 = some (incrementRunCount fd.2))) ∧
    (∀ j ∈ ((EngineProcessor.processInProgressDocuments p retryLimit store).1).sendCommandPool.jobs,
      j ∈ p.sendCommandPool.jobs ∨
      ∃ fd, fd ∈ store.current ∧ fd.2.documentInformation.runCount < retryLimit ∧
        p.isSupportedDocumentType fd.2.documentType = true ∧
        j = { jobId := jobIdFor (incrementRunCount fd.2), queued := true,
              token := TokenState.active }) := by
  refine ⟨?_, ?_, ?_, ?_, ?_⟩
  · intro fd hfd hunsup
    have hcond : ∀ fd' ∈ store.pending, fd'.1 = fd.1 →
        p.isSupportedDocumentType fd'.2.documentType = false := by
      intro fd' hfd' hkey
      rw [assoc_unique_of_nodup store.pending hnodupP fd' hfd' fd hfd hkey]
      exact hunsup
    have hni := processPendingLoop_preserves store.pending p store fd.1 hkeysP hcond
    exact ⟨hni.1.trans (dirLookup_self_of_nodup store.pending hnodupP fd hfd), hni.2⟩
  · exact processPendingLoop_other_dirs store.pending p store
  · exact (processPendingLoop_jobs store.pending p store).1
  · intro fd hfd hunsup
    obtain ⟨f1, f2⟩ := fd
    obtain ⟨pre, post, hsplit⟩ := List.append_of_mem hfd
    have hm : ∀ gd ∈ pre ++ (f1, f2) :: post,
        dirLookup (store.dirOf Location.current) gd.1 = some gd.2 := by
      intro gd hgd
      exact dirLookup_self_of_nodup store.current hnodupC gd (by rw [hsplit]; exact hgd)
    have hout := processInProgressLoop_outcome retryLimit pre p store f1 f2 post
      (by rw [← hsplit]; exact hkeysC) (by rw [← hsplit]; exact hnodupC) hm
    constructor
    · intro hge
      have h1 := hout.1 hge
      rw [← hsplit] at h1
      exact h1
    · intro hlt
      have h2 := (hout.2 hlt).1 hunsup
      rw [← hsplit] at h2
      exact h2
  · exact (processInProgressLoop_jobs retryLimit store.current p store).1

/-- Witness for the amended C6 at concrete mixed pending and current
directories (a supported and an unsupported document in each). -/
theorem recovery_unsupported_behavior_witness :
    ((∀ fd ∈ storeMixed.pending, fd.1 = fd.2.documentInformation.documentID) ∧
     (storeMixed.pending.map Prod.fst).Nodup ∧
     (∀ fd ∈ storeMixed.current, fd.1 = fd.2.documentInformation.documentID) ∧
     (storeMixed.current.map Prod.fst).Nodup) ∧
    ((∀ fd, fd ∈ storeMixed.pending →
        procTwoPools.isSupportedDocumentType fd.2.documentType = false →
      dirLookup (((EngineProcessor.processPendingDocuments procTwoPools storeMixed).2).dirOf
        Location.pending) fd.1 = some fd.2 ∧
      dirLookup (((EngineProcessor.processPendingDocuments procTwoPools storeMixed).2).dirOf
        Location.corrupt) fd.1 = dirLookup (storeMixed.dirOf Location.corrupt) fd.1) ∧
    (((EngineProcessor.processPendingDocuments procTwoPools storeMixed).2).dirOf Location.current =
        storeMixed.dirOf Location.current ∧
     ((EngineProcessor.processPendingDocuments procTwoPools storeMixed).2).dirOf Location.completed =
        storeMixed.dirOf Location.completed) ∧
    (∀ j ∈ ((EngineProcessor.processPendingDocuments procTwoPools storeMixed).1).sendCommandPool.jobs,
      j ∈ procTwoPools.sendCommandPool.jobs ∨
      ∃ fd, fd ∈ storeMixed.pending ∧
        procTwoPools.isSupportedDocumentType fd.2.documentType = true ∧
        j = { jobId := jobIdFor fd.2, queued := true, token := TokenState.active }) ∧
    (∀ fd, fd ∈ storeMixed.current →
        procTwoPools.isSupportedDocumentType fd.2.documentType = false →
      (fd.2.documentInformation.runCount ≥ (2 : Int) →
        dirLookup (((EngineProcessor.processInProgressDocuments procTwoPools 2 storeMixed).2).dirOf
          Location.corrupt) fd.1 = some fd.2 ∧
        dirLookup (((EngineProcessor.processInProgressDocuments procTwoPools 2 storeMixed).2).dirOf
          Location.current) fd.1 = none) ∧
      (fd.2.documentInformation.runCount < (2 : Int) →
        dirLookup (((EngineProcessor.processInProgressDocuments procTwoPools 2 storeMixed).2).dirOf
          Location.current) fd.1 = some (incrementRunCount fd.2))) ∧
    (∀ j ∈ ((EngineProcessor.processInProgressDocuments procTwoPools 2 storeMixed).1).sendCommandPool.jobs,
      j ∈ procTwoPools.sendCommandPool.jobs ∨
      ∃ fd, fd ∈ storeMixed.current ∧ fd.2.documentInformation.runCount < (2 : Int) ∧
        procTwoPools.isSupportedDocumentType fd.2.documentType = true ∧
        j = { jobId := jobIdFor (incrementRunCount fd.2), queued := true,
              token := TokenState.active })) :=
  ⟨⟨by decide, by decide, by decide, by decide⟩,
   recovery_unsupported_behavior procTwoPools storeMixed 2
     (by decide) (by decide) (by decide) (by decide)⟩
